import Mathlib

/-
Verification of the core pipeline of atmccann/game-visualizer (src/scraper.py).

Modelling conventions for the shallow embedding:
* Python floats are modelled as exact rationals `ℚ`.  Every arithmetic step that
  the verified claims exercise (sums and differences of small integers divided
  by 60, multiples of 20 and 5) is exact in IEEE double precision, so the
  rational model is faithful on those inputs.
* Python `str` is modelled as `List Char` (`Str` below); `str.split(sep)` is
  `splitOnChar`, `str.replace('#','')` is a character filter.
* A raised Python exception (ValueError, NameError, IndexError) is modelled as
  `Option.none`; normal return is `some`.
* `re.match(pat, s)` for the anchored patterns of the source
  (`[0-9]*\-[0-9]*$`, `[0-9]*:[0-9]*$`, `End of`) is decided structurally:
  the first two accept exactly the strings made of a (possibly empty) digit
  run, the separator, and a (possibly empty) digit run; the third accepts any
  string starting with "End of".
-/

set_option autoImplicit false

abbrev Str := List Char

/-- Python `str.split(sep)` for a one-character separator: the pieces between
occurrences of `sep`, empty pieces kept, `[""]` for the empty string. -/
def splitOnChar (sep : Char) : Str → List Str
  | [] => [[]]
  | c :: cs =>
      match splitOnChar sep cs with
      | [] => [[]]
      | p :: ps => if c == sep then [] :: p :: ps else (c :: p) :: ps

/-- Numeric value of a digit string (used only on all-digit strings). -/
def digitsToNat (s : Str) : ℕ :=
  s.foldl (fun acc c => 10 * acc + (c.toNat - 48)) 0

/-- Python `int(s)` restricted to the token shapes the scraper feeds it:
succeeds exactly on a non-empty all-digit string, raises (`none`) otherwise
(in particular `int('')` raises ValueError). -/
def pyInt (s : Str) : Option ℤ :=
  if s.isEmpty then none
  else if s.all Char.isDigit then some ((digitsToNat s : ℕ) : ℤ) else none

/-- Python `float(s)` on the digit strings produced by the clock split;
`float('')` raises (`none`). -/
def pyFloat (s : Str) : Option ℚ :=
  (pyInt s).map fun n => (n : ℚ)

/-- Embedding of `re.match(r'[0-9]*\-[0-9]*$', s)`: a digit run, one `-`, a digit run
(either run may be empty — the source uses `*`, not `+`). -/
def matchScore (s : Str) : Bool :=
  match splitOnChar '-' s with
  | [a, b] => a.all Char.isDigit && b.all Char.isDigit
  | _ => false

/-- Embedding of `re.match(r'[0-9]*:[0-9]*$', s)`: a digit run, one `:`, a digit run. -/
def matchTimestamp (s : Str) : Bool :=
  match splitOnChar ':' s with
  | [a, b] => a.all Char.isDigit && b.all Char.isDigit
  | _ => false

/-- Does `s` start with the pattern `pat`? (`re.match(r'End of', s)`). -/
def tokenStartsWith : Str → Str → Bool
  | [], _ => true
  | _ :: _, [] => false
  | p :: ps, c :: cs => p == c && tokenStartsWith ps cs

def endOfMarker : Str := ['E', 'n', 'd', ' ', 'o', 'f']

/-- Embedding of `parse_time` (src/scraper.py:14-20): split on `:` into exactly two parts
and return `minutes + seconds / 60`; anything else raises (`none`). -/
def parse_time (s : Str) : Option ℚ :=
  match splitOnChar ':' s with
  | [m, sec] =>
      match pyFloat m, pyFloat sec with
      | some mv, some sv => some (mv + sv / 60)
      | _, _ => none
  | _ => none

/-- Embedding of `convert_global_time` (src/scraper.py:22-34), exactly as the source
computes it: `since_start_of_half` is `20 - t` for halves 1-2 and `5 - t`
afterwards, and the offset is always `20 * (half - 1)`. -/
def convert_global_time (relative_time : ℚ) (half : ℤ) : ℚ :=
  let since_start_of_half : ℚ :=
    if half < 3 then 20 - relative_time else 5 - relative_time
  20 * ((half : ℚ) - 1) + since_start_of_half

/-- The event dictionaries built by `process_one_game` (src/scraper.py:153-165). -/
structure GameEvent where
  game_id : Str
  round_num : ℤ
  away : Str
  away_rank : ℤ
  home : Str
  home_rank : ℤ
  time : ℚ
  away_score : ℤ
  home_score : ℤ
  diff_score : ℤ
  rank_diff : ℤ
  deriving DecidableEq

/-- The inner `while` loop of `make_uniform_time_intervals`
(src/scraper.py:49-56): advance the cursor while `t > cur_event['time']`,
stopping when no further event exists. -/
def resampleAdvance (t : ℚ) : GameEvent → List GameEvent → GameEvent × List GameEvent
  | cur, [] => (cur, [])
  | cur, e :: es => if t > cur.time then resampleAdvance t e es else (cur, e :: es)

/-- The `for t in times` loop of `make_uniform_time_intervals`
(src/scraper.py:48-61): per checkpoint, advance the cursor, then append a
shallow copy of the cursor event with its `time` overwritten to `t`. -/
def resampleGo : GameEvent → List GameEvent → List ℚ → List GameEvent
  | _, _, [] => []
  | cur, rest, t :: ts =>
      let p := resampleAdvance t cur rest
      { p.1 with time := t } :: resampleGo p.1 p.2 ts

/-- Embedding of `make_uniform_time_intervals` (src/scraper.py:36-63).  The source reads
`events[0]` before the loop, so an empty event list raises IndexError
(`none`). -/
def make_uniform_time_intervals (events : List GameEvent) (times : List ℚ) :
    Option (List GameEvent) :=
  match events with
  | [] => none
  | e :: es => some (resampleGo e es times)

/-- Modelled from the spec: §4.4 resampler contract, stated in the spec's own
words for comparison with `make_uniform_time_intervals` — each checkpoint `t`
receives a shallow copy of the most recent input event whose `time` is `≤ t`
(last-processed wins when several events share that time), clamped to the
first event when every event is later than `t`, with the copy's `time`
overwritten to `t`. -/
def resampleSpec (events : List GameEvent) (times : List ℚ) :
    Option (List GameEvent) :=
  match events with
  | [] => none
  | e0 :: _ =>
      some (times.map fun t =>
        match (events.filter fun e => decide (e.time ≤ t)).getLast? with
        | some e => { e with time := t }
        | none => { e0 with time := t })

/-- Modelled from the spec: the global-time formula claimed in §4.2 —
`nominal_length − countdown` plus `20·min(period−1, 2) + 5·max(period−3, 0)`,
with `nominal_length` 20 for periods 1-2 and 5 for periods ≥ 3.  Stated for
comparison with `convert_global_time`. -/
def specGlobalTime (countdown : ℚ) (period : ℤ) : ℚ :=
  let nominal_length : ℚ := if period < 3 then 20 else 5
  ((20 * min (period - 1) 2 + 5 * max (period - 3) 0 : ℤ) : ℚ) +
    (nominal_length - countdown)

/-- The `TeamIdentity` record of the spec (§3): what
`parse_team_names_and_rankings` hands to `process_one_game`. -/
structure TeamIdentity where
  away_name : Str
  away_rank : ℤ
  home_name : Str
  home_rank : ℤ
  deriving DecidableEq

/-- The mutable locals of the row scan of `process_one_game`
(src/scraper.py:121-147): running period, previously recorded scores, the last
parsed clock reading (`none` while the Python local is still unbound), the
scores parsed by the last score token (`none` while unbound), and the
accumulated event list. -/
structure ScanState where
  period : ℤ
  previous_away_score : ℤ
  previous_home_score : ℤ
  cur_time : Option ℚ
  last_score : Option (ℤ × ℤ)
  events : List GameEvent
  deriving DecidableEq

/-- The event dictionary literal of src/scraper.py:153-165, with the
per-game constants (`game_id`, ranks, `rank_diff`, the `diff_score` sign
convention from `home_higher_rank`) inlined from lines 114-119. -/
def mkEvent (id : TeamIdentity) (round_num period : ℤ) (cur_time : ℚ)
    (away_score home_score : ℤ) : GameEvent :=
  { game_id := id.away_name ++ ['-'] ++ id.home_name
    round_num := round_num
    away := id.away_name
    away_rank := id.away_rank
    home := id.home_name
    home_rank := id.home_rank
    time := convert_global_time cur_time period
    away_score := away_score
    home_score := home_score
    diff_score := if id.home_rank < id.away_rank then home_score - away_score
                  else away_score - home_score
    rank_diff := |id.away_rank - id.home_rank| }

/-- Lines 135-141: on a score token, parse both sides (raising on an empty
side), set `event_row` iff either score changed, and record the new scores. -/
def scoreStep (s : ScanState) (er : Bool) (col : Str) : Option (ScanState × Bool) :=
  if matchScore col then
    match splitOnChar '-' col with
    | [a, b] =>
        match pyInt a, pyInt b with
        | some pa, some ph =>
            some ({ s with previous_away_score := pa
                           previous_home_score := ph
                           last_score := some (pa, ph) },
                  decide (pa ≠ s.previous_away_score) ||
                    decide (ph ≠ s.previous_home_score))
        | _, _ => none
    | _ => none
  else some (s, er)

/-- Lines 143-144: on a timestamp token, parse the clock (raising on a
degenerate token) and hold it as `cur_time`. -/
def timeStep (s : ScanState) (col : Str) : Option ScanState :=
  if matchTimestamp col then
    match parse_time col with
    | some t => some { s with cur_time := some t }
    | none => none
  else some s

/-- Lines 146-147: on an `End of` marker, increment the period. -/
def periodStep (s : ScanState) (col : Str) : ScanState :=
  if tokenStartsWith endOfMarker col then { s with period := s.period + 1 } else s

/-- Lines 149-166: the `if event_row:` block, which sits INSIDE the column
loop in the source.  Reading `away_score` / `home_score` / `cur_time` while
the Python locals are unbound raises NameError (`none`). -/
def emitStep (id : TeamIdentity) (round_num : ℤ) (s : ScanState) (er : Bool) :
    Option ScanState :=
  if er then
    match s.last_score, s.cur_time with
    | some (a, b), some ct =>
        some { s with events := s.events ++ [mkEvent id round_num s.period ct a b] }
    | _, _ => none
  else some s

/-- One iteration of `for col in cols` (src/scraper.py:134-166): the four
`if` statements in source order. -/
def processCol (id : TeamIdentity) (round_num : ℤ) (acc : ScanState × Bool)
    (col : Str) : Option (ScanState × Bool) :=
  match scoreStep acc.1 acc.2 col with
  | none => none
  | some (s1, er1) =>
      match timeStep s1 col with
      | none => none
      | some s2 =>
          match emitStep id round_num (periodStep s2 col) er1 with
          | none => none
          | some s4 => some (s4, er1)

/-- The `for col in cols` loop. -/
def processCols (id : TeamIdentity) (round_num : ℤ) :
    ScanState × Bool → List Str → Option (ScanState × Bool)
  | acc, [] => some acc
  | acc, c :: cs =>
      match processCol id round_num acc c with
      | none => none
      | some acc2 => processCols id round_num acc2 cs

/-- The `for row in rows` loop (src/scraper.py:129-166); `event_row` is reset
to `False` at the start of every row. -/
def processRows (id : TeamIdentity) (round_num : ℤ) :
    ScanState → List (List Str) → Option ScanState
  | s, [] => some s
  | s, row :: rest =>
      match processCols id round_num (s, false) row with
      | none => none
      | some (s2, er2) => processRows id round_num s2 rest

/-- Initial scan state (src/scraper.py:121-123): period 1, scores 0-0,
clock and row scores still unbound. -/
def initState : ScanState :=
  { period := 1
    previous_away_score := 0
    previous_home_score := 0
    cur_time := none
    last_score := none
    events := [] }

/-- The row-scanning extraction of `process_one_game` (src/scraper.py:104-166)
with HTML retrieval externalized: the team identity and the per-row cell texts
are the inputs, the event list is the output (the spec's `extract_events`). -/
def extract_events (id : TeamIdentity) (round_num : ℤ) (rows : List (List Str)) :
    Option (List GameEvent) :=
  (processRows id round_num initState rows).map fun s => s.events

/-- Embedding of `parse_team_names_and_rankings` (src/scraper.py:65-80) with BeautifulSoup
externalized: the inputs are the linescore anchor texts and the result of
`soup.find_all('td', {'class': 'teamRank'})`.  BeautifulSoup's `find_all`
returns a (possibly empty) list and never `None`, but the source guards
against `None`, so the input keeps the `Option` shape of the Python variable.
Unpacking a list that does not have exactly two elements, or `int` on a
non-numeric rank text, raises (`none`). -/
def parse_team_names_and_rankings (anchor_texts : List Str)
    (rank_rows : Option (List Str)) : Option (Str × ℤ × Str × ℤ) :=
  match anchor_texts with
  | [away_name, home_name] =>
      match rank_rows with
      | none => some (away_name, -1, home_name, -1)
      | some rows =>
          match (rows.filter fun t => !t.isEmpty).mapM
              (fun t => pyInt (t.filter fun c => c != '#')) with
          | some [away_rank, home_rank] =>
              some (away_name, away_rank, home_name, home_rank)
          | _ => none
  | _ => none

/-- A game event with only the fields the resampler inspects varied;
the remaining fields are fixed placeholders. -/
def ev (t : ℚ) (a h : ℤ) : GameEvent :=
  { game_id := []
    round_num := 0
    away := []
    away_rank := 0
    home := []
    home_rank := 0
    time := t
    away_score := a
    home_score := h
    diff_score := 0
    rank_diff := 0 }

/-- Identity fixture: away team "A" ranked 5, home team "B" ranked 10. -/
def idAB : TeamIdentity :=
  { away_name := ['A'], away_rank := 5, home_name := ['B'], home_rank := 10 }

/-- A cell text that matches none of the three row patterns. -/
abbrev noPattern (c : Str) : Prop :=
  matchScore c = false ∧ matchTimestamp c = false ∧
    tokenStartsWith endOfMarker c = false

/-- The event described by the row `["20:00", "1-0", ...]` under `idAB`:
clock 20:00 of period 1 is global time 0, the away side leads 1-0, and with
the away team better ranked `diff_score = away - home = 1`; `rank_diff = 5`. -/
def dupEvent : GameEvent :=
  { game_id := ['A', '-', 'B']
    round_num := 0
    away := ['A']
    away_rank := 5
    home := ['B']
    home_rank := 10
    time := 0
    away_score := 1
    home_score := 0
    diff_score := 1
    rank_diff := 5 }

/-- The cell text "20:00". -/
def clockCell : Str := ['2', '0', ':', '0', '0']

/-- The cell text "1-0". -/
def scoreCell : Str := ['1', '-', '0']

/- ------------------------------------------------------------------ -/
/- Helper lemmas about the resampler.                                  -/
/- ------------------------------------------------------------------ -/

theorem resampleAdvance_suffix (t : ℚ) (cur : GameEvent) (rest : List GameEvent) :
    ((resampleAdvance t cur rest).1 :: (resampleAdvance t cur rest).2) <:+ (cur :: rest) := by
  induction rest generalizing cur with
  | nil => simp [resampleAdvance]
  | cons e es ih =>
      by_cases h : t > cur.time
      · simp only [resampleAdvance, if_pos h]
        exact (ih e).trans (List.suffix_cons cur (e :: es))
      · simp only [resampleAdvance, if_neg h]
        exact List.suffix_refl _

theorem resampleGo_map_time (cur : GameEvent) (rest : List GameEvent) (ts : List ℚ) :
    (resampleGo cur rest ts).map GameEvent.time = ts := by
  induction ts generalizing cur rest with
  | nil => rfl
  | cons t ts ih => simp [resampleGo, ih]

theorem resampleGo_mem (cur : GameEvent) (rest : List GameEvent) (ts : List ℚ) :
    ∀ o ∈ resampleGo cur rest ts, ∃ e ∈ cur :: rest, o = { e with time := o.time } := by
  induction ts generalizing cur rest with
  | nil => intro o ho; simp [resampleGo] at ho
  | cons t ts ih =>
      intro o ho
      simp only [resampleGo, List.mem_cons] at ho
      rcases ho with rfl | ho
      · exact ⟨(resampleAdvance t cur rest).1,
          (resampleAdvance_suffix t cur rest).subset (List.mem_cons_self _ _), by simp⟩
      · obtain ⟨e, he, hoe⟩ :=
          ih (resampleAdvance t cur rest).1 (resampleAdvance t cur rest).2 o ho
        exact ⟨e, (resampleAdvance_suffix t cur rest).subset he, hoe⟩

/- ------------------------------------------------------------------ -/
/- Claims.                                                             -/
/- ------------------------------------------------------------------ -/

/-- C5: for every non-empty, time-ascending event sequence and non-decreasing
checkpoint list, the resampler succeeds, returns exactly one record per
checkpoint, and the i-th output's `time` equals the i-th checkpoint exactly
(stated as `out.map time = C`, which gives both the length and the pointwise
round-trip on the `time` field). -/
theorem resample_length_and_times (E : List GameEvent) (C : List ℚ)
    (hE : E ≠ []) (hasc : List.Chain' (fun a b => a.time ≤ b.time) E)
    (hC : List.Chain' (fun a b => a ≤ b) C) :
    ∃ out, make_uniform_time_intervals E C = some out ∧
      out.length = C.length ∧ out.map GameEvent.time = C := by
  match E, hE with
  | e :: es, _ =>
      refine ⟨resampleGo e es C, rfl, ?_, resampleGo_map_time e es C⟩
      simpa using congrArg List.length (resampleGo_map_time e es C)

theorem resample_length_and_times_witness :
    ∃ out, make_uniform_time_intervals [ev 0 0 0] [3] = some out ∧
      out.length = ([3] : List ℚ).length ∧ out.map GameEvent.time = [3] :=
  resample_length_and_times [ev 0 0 0] [3] (by decide) (by simp) (by simp)

/-- C6: the resampler invoked on an empty event sequence (with at least one
checkpoint) surfaces an error — the source reads `events[0]` before its loop,
raising IndexError — rather than returning any output records. -/
theorem resample_empty_events_errors (C : List ℚ) (hC : C ≠ []) :
    make_uniform_time_intervals [] C = none := rfl

theorem resample_empty_events_errors_witness :
    ([(0 : ℚ)] ≠ []) ∧ make_uniform_time_intervals [] [(0 : ℚ)] = none :=
  ⟨by decide, resample_empty_events_errors [0] (by decide)⟩

/-- C9: every resampler output record is a clone of some input event agreeing
with it on every field except `time` (the input list itself is a value in this
pure embedding, hence unchanged). -/
theorem resample_outputs_clone_inputs (E : List GameEvent) (C : List ℚ)
    (out : List GameEvent) (h : make_uniform_time_intervals E C = some out) :
    ∀ o ∈ out, ∃ e ∈ E, o = { e with time := o.time } := by
  cases E with
  | nil => simp [make_uniform_time_intervals] at h
  | cons e es =>
      simp only [make_uniform_time_intervals, Option.some.injEq] at h
      subst h
      exact resampleGo_mem e es C

theorem resample_outputs_clone_inputs_witness :
    ∃ e ∈ [ev 0 0 0, ev 10 2 0],
      ({ ev 10 2 0 with time := (5 : ℚ) } : GameEvent)
        = { e with time := ({ ev 10 2 0 with time := (5 : ℚ) } : GameEvent).time } :=
  resample_outputs_clone_inputs [ev 0 0 0, ev 10 2 0] [5]
    [{ ev 10 2 0 with time := 5 }] (by decide)
    { ev 10 2 0 with time := 5 } (List.mem_singleton.mpr rfl)

/-- C1: the claim says each checkpoint receives a copy of the most recent
event whose time is ≤ the checkpoint.  The code's cursor instead advances
while `t > cur_event['time']`, so checkpoint 5, lying strictly between events
at times 0 (score 0-0) and 10 (score 2-0), receives a copy of the UPCOMING
time-10 event, while the claimed selection (`resampleSpec`, the spec's words)
delivers the time-0 event. -/
theorem resample_uses_upcoming_event :
    make_uniform_time_intervals [ev 0 0 0, ev 10 2 0] [5]
        = some [{ ev 10 2 0 with time := 5 }] ∧
    resampleSpec [ev 0 0 0, ev 10 2 0] [5]
        = some [{ ev 0 0 0 with time := 5 }] ∧
    make_uniform_time_intervals [ev 0 0 0, ev 10 2 0] [5]
        ≠ resampleSpec [ev 0 0 0, ev 10 2 0] [5] := by decide

/-- C8: the five global-time identities listed in the spec (§8). -/
theorem convert_global_time_identities :
    convert_global_time 20 1 = 0 ∧ convert_global_time 0 1 = 20 ∧
    convert_global_time 0 2 = 40 ∧ convert_global_time 5 3 = 40 ∧
    convert_global_time 0 3 = 45 := by
  refine ⟨?_, ?_, ?_, ?_, ?_⟩ <;> norm_num [convert_global_time]

/-- C2 counterexample: at countdown 5, period 4 the code returns 60 (it counts
every completed period, overtime included, as 20 minutes), while the claimed
formula gives 45. -/
theorem convert_global_time_period4_diverges :
    convert_global_time 5 4 = 60 ∧ specGlobalTime 5 4 = 45 ∧
    convert_global_time 5 4 ≠ specGlobalTime 5 4 := by
  norm_num [convert_global_time, specGlobalTime]

/-- C2 (amended): the claimed decomposition
`20·min(period−1,2) + 5·max(period−3,0) + (nominal − countdown)` agrees with
the code exactly for periods 1-3; from period 4 on the code's
`20·(half−1)` offset departs from it. -/
theorem convert_global_time_matches_spec_upto_period3 (c : ℚ) (p : ℤ)
    (h1 : 1 ≤ p) (h3 : p ≤ 3) :
    convert_global_time c p = specGlobalTime c p := by
  interval_cases p <;>
    norm_num [convert_global_time, specGlobalTime, min_def, max_def]

theorem convert_global_time_matches_spec_upto_period3_witness :
    ((1 : ℤ) ≤ 3 ∧ (3 : ℤ) ≤ 3) ∧ convert_global_time 0 3 = specGlobalTime 0 3 :=
  ⟨by decide, convert_global_time_matches_spec_upto_period3 0 3 (by decide) (by decide)⟩

/- ------------------------------------------------------------------ -/
/- Helper lemmas about the extractor.                                  -/
/- ------------------------------------------------------------------ -/

theorem scoreStep_events {s : ScanState} {er : Bool} {col : Str} {s1 : ScanState}
    {er1 : Bool} (h : scoreStep s er col = some (s1, er1)) :
    s1.events = s.events := by
  unfold scoreStep at h
  split at h
  · split at h
    · split at h
      · simp only [Option.some.injEq, Prod.mk.injEq] at h
        rw [← h.1]
      · simp at h
    · simp at h
  · simp only [Option.some.injEq, Prod.mk.injEq] at h
    rw [← h.1]

theorem timeStep_events {s : ScanState} {col : Str} {s2 : ScanState}
    (h : timeStep s col = some s2) : s2.events = s.events := by
  unfold timeStep at h
  split at h
  · split at h
    · simp only [Option.some.injEq] at h
      rw [← h]
    · simp at h
  · simp only [Option.some.injEq] at h
    rw [← h]

theorem periodStep_events (s : ScanState) (col : Str) :
    (periodStep s col).events = s.events := by
  unfold periodStep
  split <;> rfl

theorem emitStep_events {id : TeamIdentity} {round_num : ℤ} {s : ScanState}
    {er : Bool} {s4 : ScanState} (h : emitStep id round_num s er = some s4) :
    s4.events = s.events ∨
      ∃ p ct a b, s4.events = s.events ++ [mkEvent id round_num p ct a b] := by
  unfold emitStep at h
  split at h
  · split at h
    · simp only [Option.some.injEq] at h
      subst h
      right
      exact ⟨_, _, _, _, rfl⟩
    · simp at h
  · simp only [Option.some.injEq] at h
    subst h
    exact Or.inl rfl

theorem processCol_events {id : TeamIdentity} {round_num : ℤ}
    {acc acc' : ScanState × Bool} {col : Str}
    (h : processCol id round_num acc col = some acc') :
    ∀ e ∈ acc'.1.events,
      e ∈ acc.1.events ∨ ∃ p ct a b, e = mkEvent id round_num p ct a b := by
  unfold processCol at h
  split at h
  · simp at h
  · rename_i s1 er1 hscore
    split at h
    · simp at h
    · rename_i s2 htime
      split at h
      · simp at h
      · rename_i s3 hemit
        simp only [Option.some.injEq] at h
        subst h
        intro e he
        have hchain : (periodStep s2 col).events = acc.1.events := by
          rw [periodStep_events, timeStep_events htime, scoreStep_events hscore]
        rcases emitStep_events hemit with heq | ⟨p, ct, a, b, heq⟩
        · left
          rw [heq, hchain] at he
          exact he
        · rw [heq, hchain, List.mem_append] at he
          rcases he with he | he
          · exact Or.inl he
          · right
            exact ⟨p, ct, a, b, List.mem_singleton.mp he⟩

theorem processCols_events {id : TeamIdentity} {round_num : ℤ}
    {acc acc2 : ScanState × Bool} {cs : List Str}
    (h : processCols id round_num acc cs = some acc2) :
    ∀ e ∈ acc2.1.events,
      e ∈ acc.1.events ∨ ∃ p ct a b, e = mkEvent id round_num p ct a b := by
  induction cs generalizing acc with
  | nil =>
      simp only [processCols, Option.some.injEq] at h
      subst h
      exact fun e he => Or.inl he
  | cons c cs ih =>
      simp only [processCols] at h
      split at h
      · simp at h
      · rename_i acc1 hcol
        intro e he
        rcases ih h e he with hm | hk
        · exact processCol_events hcol e hm
        · exact Or.inr hk

theorem processRows_events {id : TeamIdentity} {round_num : ℤ}
    {s s' : ScanState} {rows : List (List Str)}
    (h : processRows id round_num s rows = some s') :
    ∀ e ∈ s'.events,
      e ∈ s.events ∨ ∃ p ct a b, e = mkEvent id round_num p ct a b := by
  induction rows generalizing s with
  | nil =>
      simp only [processRows, Option.some.injEq] at h
      subst h
      exact fun e he => Or.inl he
  | cons row rest ih =>
      simp only [processRows] at h
      split at h
      · simp at h
      · rename_i s2 er2 hcols
        intro e he
        rcases ih h e he with hm | hk
        · exact processCols_events hcols e hm
        · exact Or.inr hk

theorem processCol_noPattern (id : TeamIdentity) (round_num : ℤ) (s : ScanState)
    (col : Str) (h : noPattern col) :
    processCol id round_num (s, false) col = some (s, false) := by
  obtain ⟨h1, h2, h3⟩ := h
  simp [processCol, scoreStep, timeStep, periodStep, emitStep, h1, h2, h3]

theorem processCols_noPattern (id : TeamIdentity) (round_num : ℤ) (s : ScanState)
    (row : List Str) (h : ∀ c ∈ row, noPattern c) :
    processCols id round_num (s, false) row = some (s, false) := by
  induction row with
  | nil => rfl
  | cons c cs ih =>
      have hc := processCol_noPattern id round_num s c (h c (List.mem_cons_self c cs))
      have hcs := ih fun x hx => h x (List.mem_cons_of_mem c hx)
      simp [processCols, hc, hcs]

/- ------------------------------------------------------------------ -/
/- Extractor claims.                                                   -/
/- ------------------------------------------------------------------ -/

/-- C3: the claim says a changed score yields exactly one event.  The code's
`if event_row:` block sits inside the per-column loop, so after the score
column "1-0" (a change from 0-0) every remaining column of the row appends a
further copy: the single-change row `["20:00", "1-0", "x"]` yields TWO
identical events rather than one. -/
theorem extract_events_duplicate_on_trailing_column :
    extract_events idAB 0 [[clockCell, scoreCell, ['x']]]
      = some [dupEvent, dupEvent] := by
  simp [extract_events, processRows, processCols, processCol, scoreStep, timeStep,
    periodStep, emitStep, matchScore, matchTimestamp, parse_time, pyFloat, pyInt,
    splitOnChar, digitsToNat, tokenStartsWith, endOfMarker, clockCell, scoreCell,
    idAB, initState, mkEvent, dupEvent, convert_global_time]

/-- C4 counterexample: the token "-" matches the score pattern
`[0-9]*\-[0-9]*$` (both digit runs empty), and `int('')` then raises an
uncaught ValueError — a malformed token crashes the extractor instead of
being skipped. -/
theorem extract_events_crash_on_degenerate_token :
    extract_events idAB 0 [[['-']]] = none := by decide

/-- C4 (amended): a row none of whose cells matches any pattern contributes
no event and leaves the scan state unchanged, so extraction continues with
the subsequent rows exactly as if the row were absent. -/
theorem unmatched_row_is_skipped (id : TeamIdentity) (round_num : ℤ)
    (s : ScanState) (row : List Str) (rest : List (List Str))
    (h : ∀ c ∈ row, noPattern c) :
    processRows id round_num s (row :: rest) = processRows id round_num s rest := by
  have hrow := processCols_noPattern id round_num s row h
  simp [processRows, hrow]

theorem unmatched_row_is_skipped_witness :
    (∀ c ∈ [['x']], noPattern c) ∧
      processRows idAB 0 initState [[['x']]] = processRows idAB 0 initState [] :=
  ⟨by decide, unmatched_row_is_skipped idAB 0 initState [['x']] [] (by decide)⟩

/-- C7: the claim says an absent ranking table is recovered with the −1
sentinel for both teams.  BeautifulSoup's `find_all` returns an empty list
(never `None`) when the table is absent, so the source's `is None` branch —
which indeed would substitute −1/−1 — is dead, and unpacking the empty rank
list raises ValueError instead. -/
theorem parse_rankings_error_when_table_absent :
    parse_team_names_and_rankings [['A'], ['B']] (some []) = none ∧
    parse_team_names_and_rankings [['A'], ['B']] none
      = some (['A'], -1, ['B'], -1) := by decide

/-- C10: every event emitted by one extraction run carries the identity
constants fixed before the row scan: `game_id = away-home`, the caller's
`round_num`, both names, both ranks, and `rank_diff = |away_rank − home_rank|`. -/
theorem extract_events_constant_identity_fields (id : TeamIdentity)
    (round_num : ℤ) (rows : List (List Str)) (evs : List GameEvent)
    (h : extract_events id round_num rows = some evs) :
    ∀ e ∈ evs, e.game_id = id.away_name ++ ['-'] ++ id.home_name ∧
      e.round_num = round_num ∧ e.away = id.away_name ∧
      e.away_rank = id.away_rank ∧ e.home = id.home_name ∧
      e.home_rank = id.home_rank ∧
      e.rank_diff = |id.away_rank - id.home_rank| := by
  unfold extract_events at h
  cases hp : processRows id round_num initState rows with
  | none => rw [hp] at h; simp at h
  | some st =>
      rw [hp] at h
      simp only [Option.map_some', Option.some.injEq] at h
      subst h
      intro e he
      rcases processRows_events hp e he with hm | ⟨p, ct, a, b, rfl⟩
      · simp [initState] at hm
      · exact ⟨rfl, rfl, rfl, rfl, rfl, rfl, rfl⟩

theorem extract_events_constant_identity_fields_witness :
    (mkEvent idAB 7 1 20 1 0).game_id = idAB.away_name ++ ['-'] ++ idAB.home_name ∧
    (mkEvent idAB 7 1 20 1 0).round_num = 7 ∧
    (mkEvent idAB 7 1 20 1 0).away = idAB.away_name ∧
    (mkEvent idAB 7 1 20 1 0).away_rank = idAB.away_rank ∧
    (mkEvent idAB 7 1 20 1 0).home = idAB.home_name ∧
    (mkEvent idAB 7 1 20 1 0).home_rank = idAB.home_rank ∧
    (mkEvent idAB 7 1 20 1 0).rank_diff = |idAB.away_rank - idAB.home_rank| :=
  extract_events_constant_identity_fields idAB 7 [[clockCell, scoreCell]]
    [mkEvent idAB 7 1 20 1 0]
    (by simp [extract_events, processRows, processCols, processCol, scoreStep,
      timeStep, periodStep, emitStep, matchScore, matchTimestamp, parse_time,
      pyFloat, pyInt, splitOnChar, digitsToNat, tokenStartsWith, endOfMarker,
      clockCell, scoreCell, idAB, initState, mkEvent])
    (mkEvent idAB 7 1 20 1 0) (List.mem_singleton.mpr rfl)
